import Mathlib

/-!
# Pulsera — Episode Detection & Community Correlation Engine

A shallow embedding of the engine described by the Pulsera specification
(anomaly scorer, episode state machine, relay broadcaster, community
aggregator) together with the web dashboard's `CustomCursor.animate` step.

The backend engine itself (the FastAPI services under `apps/server` and the
relay under `apps/relay`) is not part of the provided sources — only its
documentation, interface contracts and architecture notes are.  All engine
definitions below are therefore modelled from the specification text, as
marked in each doc comment.  `CustomCursor.tsx` is present in the sources
and its `animate` update is embedded directly.
-/

namespace Pulsera

open scoped List

/-! ## Stages -/

/-- Modelled from the spec: the episode lifecycle stages of the missing
`EpisodeStateMachine` (`stage ∈ {Detected, Intervening, AwaitingCheckIn,
Resolved, Escalated}`). -/
inductive Stage where
  | detected
  | intervening
  | awaitingCheckIn
  | resolved
  | escalated
deriving DecidableEq, Repr

/-- Modelled from the spec: `Resolved`/`Escalated` are terminal for an
episode. -/
def Stage.isTerminal : Stage → Bool
  | .resolved => true
  | .escalated => true
  | _ => false

/-- Modelled from the spec: position of a stage in the episode's stage
sequence `Detected → Intervening → AwaitingCheckIn → (Resolved | Escalated)`;
the two terminal stages share the final position. -/
def Stage.idx : Stage → Nat
  | .detected => 0
  | .intervening => 1
  | .awaitingCheckIn => 2
  | .resolved => 3
  | .escalated => 3

/-! ## AnomalyScorer -/

/-- Modelled from the spec: a normalized vitals record produced by the
missing `VitalsStream` (`{deviceId, metricKind, value, timestamp}`,
timestamps in seconds, heart-rate values as naturals). -/
structure VitalsSample where
  deviceId : Nat
  value : Nat
  timestamp : Nat
deriving DecidableEq, Repr

/-- Modelled from the spec: the configuration struct of the missing
`AnomalyScorer` (minimum window duration `Wmin`, the baseline-relative
heart-rate threshold, the minimum contiguous elevated duration of the
sustained-elevation rule, and the 5-minute sliding window size). -/
structure ScorerConfig where
  wmin : Nat
  threshold : Nat
  sustained : Nat
  windowSize : Nat
deriving DecidableEq, Repr

/-- Timestamp of the last sample of a chronological window (default `d`
for the empty window). -/
def lastTs (d : Nat) : List VitalsSample → Nat
  | [] => d
  | s :: rest => lastTs s.timestamp rest

/-- Modelled from the spec: duration covered by a chronological sample
window — last timestamp minus first timestamp, `0` for fewer than two
samples. -/
def windowDuration : List VitalsSample → Nat
  | [] => 0
  | s :: rest => lastTs s.timestamp rest - s.timestamp

/-- Helper for the sustained-elevation rule: scans the window keeping the
first and latest timestamp of the current contiguous above-threshold run
(`none` when not inside a run) and returns the longest such run's span. -/
def elevatedSpanAux (cfg : ScorerConfig) : Option (Nat × Nat) → List VitalsSample → Nat
  | none, [] => 0
  | some (a, b), [] => b - a
  | none, s :: rest =>
    if cfg.threshold < s.value then
      elevatedSpanAux cfg (some (s.timestamp, s.timestamp)) rest
    else
      elevatedSpanAux cfg none rest
  | some (a, b), s :: rest =>
    if cfg.threshold < s.value then
      elevatedSpanAux cfg (some (a, s.timestamp)) rest
    else
      max (b - a) (elevatedSpanAux cfg none rest)

/-- Modelled from the spec: longest span of a contiguous run of
above-threshold samples in the window (the quantity the sustained-elevation
rule compares against the minimum contiguous duration). -/
def maxElevatedSpan (cfg : ScorerConfig) (w : List VitalsSample) : Nat :=
  elevatedSpanAux cfg none w

/-- Modelled from the spec: the missing `AnomalyScorer` as a pure function
of the window contents.  Policy for insufficient data: if window duration
is below `Wmin` the result is never anomalous; otherwise the
sustained-elevation rule applies (heart rate above the threshold for a
minimum contiguous duration, not a single-sample spike). -/
def isAnomalousWindow (cfg : ScorerConfig) (w : List VitalsSample) : Bool :=
  if windowDuration w < cfg.wmin then false
  else decide (cfg.sustained ≤ maxElevatedSpan cfg w)

/-! ## Per-device detection lane (sample ingestion → scoring → detection) -/

/-- Lifecycle events emitted on the detection path of a pure sample feed. -/
inductive EventKind where
  | detected
  | interventionStarted
deriving DecidableEq, Repr

/-- Modelled from the spec: state of one device's sequential ingestion lane
during a pure sample feed — the bounded sliding sample window plus the
stage of the currently open (non-terminal) episode, if any. -/
structure DeviceState where
  window : List VitalsSample
  openStage : Option Stage
deriving DecidableEq, Repr

/-- Fresh device lane: empty window, no open episode. -/
def initDevice : DeviceState := ⟨[], none⟩

/-- Modelled from the spec: ingesting one sample on a device's lane.  The
sample joins the window, samples older than the sliding window size are
evicted, the scorer runs on the window, and a `Detected` episode is created
only when the scorer fires and no episode is open (`Detected → Intervening`
is immediate and automatic, so the open episode's stage is `Intervening`
and both lifecycle events are emitted); while an episode is open further
detections are suppressed/merged into it. -/
def pushSample (cfg : ScorerConfig) (st : DeviceState) (s : VitalsSample) :
    DeviceState × List EventKind :=
  let w := (st.window ++ [s]).filter
    (fun t => decide (s.timestamp ≤ t.timestamp + cfg.windowSize))
  match st.openStage with
  | some stg => (⟨w, some stg⟩, [])
  | none =>
    if isAnomalousWindow cfg w then
      (⟨w, some .intervening⟩, [.detected, .interventionStarted])
    else
      (⟨w, none⟩, [])

/-- Feed a chronological list of samples through a device's lane, collecting
the emitted lifecycle events. -/
def feedSamples (cfg : ScorerConfig) (st : DeviceState) :
    List VitalsSample → DeviceState × List EventKind
  | [] => (st, [])
  | s :: rest =>
    let p := pushSample cfg st s
    let q := feedSamples cfg p.1 rest
    (q.1, p.2 ++ q.2)

/-- Number of `episode.detected` events in an emitted event list. -/
def countDetected (evs : List EventKind) : Nat :=
  evs.count .detected

/-- The spec's debouncing scenario: 30 samples fed over 3 minutes (6 s
apart), all above threshold. -/
def debounceSamples : List VitalsSample :=
  (List.range 30).map fun i => ⟨1, 150, 6 * i⟩

/-- A concrete scorer configuration for the debouncing scenario: `Wmin`
60 s, threshold 100 bpm, sustained duration 120 s, 5-minute window. -/
def debounceConfig : ScorerConfig := ⟨60, 100, 120, 300⟩

/-! ## EpisodeStateMachine -/

/-- Modelled from the spec: alert severity; escalation always uses `high`,
the severity of the alert created on `Detected → Intervening` entry is not
fixed by the spec and is modelled as `normal`. -/
inductive Severity where
  | high
  | normal
deriving DecidableEq, Repr

/-- Modelled from the spec: an `Episode` record of the missing
`EpisodeStateMachine`, restricted to the fields the lifecycle invariants
concern (`{episodeId, stage, openedAt, lastTransitionAt}`). -/
structure Episode where
  episodeId : Nat
  stage : Stage
  openedAt : Nat
  lastTransitionAt : Nat
deriving DecidableEq, Repr

/-- Modelled from the spec: a lifecycle event, identified by
`(episodeId, stage)`. -/
structure LifecycleEvent where
  episodeId : Nat
  stage : Stage
deriving DecidableEq, Repr

/-- Modelled from the spec: an alert created by a stage transition. -/
structure Alert where
  episodeId : Nat
  severity : Severity
deriving DecidableEq, Repr

/-- Modelled from the spec: the inputs driving one device's episode state
machine — an anomalous scorer report, the intervention completion signal,
the intervention timeout, a check-in (qualifying iff vitals are no longer
elevated), and the check-in window timeout. -/
inductive MachineInput where
  | anomalous (t : Nat)
  | interventionDone (t : Nat)
  | interventionTimeout (t : Nat)
  | checkIn (stillElevated : Bool) (t : Nat)
  | checkInTimeout (t : Nat)
deriving DecidableEq, Repr

/-- Modelled from the spec: one device's episode history together with the
id counter for freshly opened episodes. -/
structure DeviceMachine where
  episodes : List Episode
  nextId : Nat
deriving DecidableEq, Repr

/-- Fresh device machine: no episodes. -/
def initMachine : DeviceMachine := ⟨[], 0⟩

/-- Number of non-terminal (open) episodes of the device. -/
def openCount (m : DeviceMachine) : Nat :=
  (m.episodes.filter (fun e => !e.stage.isTerminal)).length

/-- The currently open episode of the device, if any. -/
def findOpen (m : DeviceMachine) : Option Episode :=
  m.episodes.find? (fun e => !e.stage.isTerminal)

/-- Retarget the stage of the still-open episode `eid` (terminal episodes
are never reopened — `TimerRace` duplicates resolve to first-writer-wins). -/
def setStage (eid : Nat) (stg : Stage) (t : Nat) (l : List Episode) : List Episode :=
  l.map fun e =>
    if e.episodeId == eid && !e.stage.isTerminal then
      { e with stage := stg, lastTransitionAt := t }
    else e

/-- Modelled from the spec: `Intervening → AwaitingCheckIn`, triggered by
the intervention completion signal or the intervention timeout; a no-op in
any other situation (timer race: second cause is discarded). -/
def interventionComplete (m : DeviceMachine) (t : Nat) :
    DeviceMachine × List LifecycleEvent × List Alert :=
  match findOpen m with
  | some e =>
    if e.stage = .intervening then
      (⟨setStage e.episodeId .awaitingCheckIn t m.episodes, m.nextId⟩,
       [⟨e.episodeId, .awaitingCheckIn⟩], [])
    else (m, [], [])
  | none => (m, [], [])

/-- Modelled from the spec: `AwaitingCheckIn → Escalated`; escalation always
creates an Alert with severity `high`. -/
def escalateOpen (m : DeviceMachine) (t : Nat) :
    DeviceMachine × List LifecycleEvent × List Alert :=
  match findOpen m with
  | some e =>
    if e.stage = .awaitingCheckIn then
      (⟨setStage e.episodeId .escalated t m.episodes, m.nextId⟩,
       [⟨e.episodeId, .escalated⟩], [⟨e.episodeId, .high⟩])
    else (m, [], [])
  | none => (m, [], [])

/-- Modelled from the spec: the transition table of the missing
`EpisodeStateMachine`.  A detection while an episode is open is rejected
(suppressed/merged into the open episode); a fresh detection creates the
episode, emits `episode.detected` followed by the immediate automatic
`Detected → Intervening` event, and creates the intervention-entry alert;
a qualifying check-in resolves, a still-elevated check-in or the check-in
timeout escalates with exactly one `high` alert. -/
def step (m : DeviceMachine) : MachineInput → DeviceMachine × List LifecycleEvent × List Alert
  | .anomalous t =>
    match findOpen m with
    | some _ => (m, [], [])
    | none =>
      (⟨{ episodeId := m.nextId, stage := .intervening, openedAt := t,
          lastTransitionAt := t } :: m.episodes, m.nextId + 1⟩,
       [⟨m.nextId, .detected⟩, ⟨m.nextId, .intervening⟩],
       [⟨m.nextId, .normal⟩])
  | .interventionDone t => interventionComplete m t
  | .interventionTimeout t => interventionComplete m t
  | .checkIn stillElevated t =>
    match findOpen m with
    | some e =>
      if e.stage = .awaitingCheckIn then
        if stillElevated then
          (⟨setStage e.episodeId .escalated t m.episodes, m.nextId⟩,
           [⟨e.episodeId, .escalated⟩], [⟨e.episodeId, .high⟩])
        else
          (⟨setStage e.episodeId .resolved t m.episodes, m.nextId⟩,
           [⟨e.episodeId, .resolved⟩], [])
      else (m, [], [])
    | none => (m, [], [])
  | .checkInTimeout t => escalateOpen m t

/-- Run the machine on a serialized input sequence from the fresh state. -/
def runMachine (inputs : List MachineInput) : DeviceMachine :=
  inputs.foldl (fun m i => (step m i).1) initMachine

/-! ## RelayBroadcaster -/

/-- Modelled from the spec: a lifecycle event as published to the relay,
identified by `(episodeId, stage)` and tagged with the owning group and a
creation time (for the freshness TTL). -/
structure LifecycleMsg where
  episodeId : Nat
  stage : Stage
  groupId : Nat
  createdAt : Nat
deriving DecidableEq, Repr

/-- Modelled from the spec: per-recipient delivery tracking of the missing
`RelayBroadcaster` — subscription, connection status, the observable
notifications delivered so far, the `(episodeId, stage)` keys already
processed (duplicate delivery tolerance), and the bounded pending backlog. -/
structure RecipientState where
  recipientId : Nat
  groupId : Option Nat
  connected : Bool
  delivered : List LifecycleMsg
  seen : List (Nat × Stage)
  pending : List LifecycleMsg
deriving DecidableEq, Repr

/-- Modelled from the spec: broadcaster state — the recipient roster plus
the backlog bound (default 20) and the freshness TTL (default 120 s). -/
structure RelayBroadcaster where
  recipients : List RecipientState
  backlogLimit : Nat
  ttl : Nat
deriving DecidableEq, Repr

/-- The transport layer, as an oracle: whether a delivery attempt to a
recipient succeeds (`false` = transport error). -/
def Transport : Type := Nat → LifecycleMsg → Bool

/-- Keep the newest `limit` entries of a backlog, dropping oldest first. -/
def dropOldest (limit : Nat) (l : List LifecycleMsg) : List LifecycleMsg :=
  l.drop (l.length - limit)

/-- Modelled from the spec: one recipient's share of `publish`.  Recipients
of other groups are untouched; a duplicate `(episodeId, stage)` is ignored;
a connected recipient with an empty backlog and a working transport gets the
notification immediately; otherwise (disconnected, transport error, or a
backlog still pending — kept queued so same-episode stage order is
preserved) the event joins the bounded pending backlog. -/
def deliverTo (limit : Nat) (tr : Transport) (ev : LifecycleMsg) (r : RecipientState) :
    RecipientState :=
  if r.groupId = some ev.groupId then
    if (ev.episodeId, ev.stage) ∈ r.seen then r
    else if r.connected && r.pending.isEmpty && tr r.recipientId ev then
      { r with delivered := r.delivered ++ [ev],
               seen := (ev.episodeId, ev.stage) :: r.seen }
    else
      { r with pending := dropOldest limit (r.pending ++ [ev]),
               seen := (ev.episodeId, ev.stage) :: r.seen }
  else r

/-- Modelled from the spec: `publish(event)` — attempt delivery to every
recipient of the event's group; never fails, whatever the transport does. -/
def publish (b : RelayBroadcaster) (tr : Transport) (ev : LifecycleMsg) : RelayBroadcaster :=
  { b with recipients := b.recipients.map (deliverTo b.backlogLimit tr ev) }

/-- Modelled from the spec: a recipient reconnecting; the pending backlog is
flushed in order, dropping events staler than the TTL. -/
def reconnect (b : RelayBroadcaster) (rid : Nat) (now : Nat) : RelayBroadcaster :=
  { b with recipients := b.recipients.map fun r =>
      if r.recipientId = rid then
        { r with connected := true,
                 delivered := r.delivered ++
                   r.pending.filter (fun ev => decide (now ≤ ev.createdAt + b.ttl)),
                 pending := [] }
      else r }

/-- Modelled from the spec: a recipient disconnecting (cancels only their
delivery, never episode state). -/
def disconnect (b : RelayBroadcaster) (rid : Nat) : RelayBroadcaster :=
  { b with recipients := b.recipients.map fun r =>
      if r.recipientId = rid then { r with connected := false } else r }

/-- Modelled from the spec: `subscribe(recipientId, groupId)` (idempotent). -/
def subscribeRecipient (b : RelayBroadcaster) (rid gid : Nat) : RelayBroadcaster :=
  { b with recipients := b.recipients.map fun r =>
      if r.recipientId = rid then { r with groupId := some gid } else r }

/-- Modelled from the spec: `unsubscribe(recipientId)` (idempotent). -/
def unsubscribeRecipient (b : RelayBroadcaster) (rid : Nat) : RelayBroadcaster :=
  { b with recipients := b.recipients.map fun r =>
      if r.recipientId = rid then { r with groupId := none } else r }

/-- The operations observable at the broadcaster's boundary. -/
inductive RelayOp where
  | publishOp (tr : Transport) (ev : LifecycleMsg)
  | reconnectOp (rid : Nat) (now : Nat)
  | disconnectOp (rid : Nat)
  | subscribeOp (rid : Nat) (gid : Nat)
  | unsubscribeOp (rid : Nat)

/-- Apply one boundary operation. -/
def applyOp (b : RelayBroadcaster) : RelayOp → RelayBroadcaster
  | .publishOp tr ev => publish b tr ev
  | .reconnectOp rid now => reconnect b rid now
  | .disconnectOp rid => disconnect b rid
  | .subscribeOp rid gid => subscribeRecipient b rid gid
  | .unsubscribeOp rid => unsubscribeRecipient b rid

/-- Run a sequence of boundary operations. -/
def runOps (b : RelayBroadcaster) (ops : List RelayOp) : RelayBroadcaster :=
  ops.foldl applyOp b

/-- The events published during an operation sequence, in order. -/
def publishedMsgs (ops : List RelayOp) : List LifecycleMsg :=
  ops.filterMap fun op =>
    match op with
    | .publishOp _ ev => some ev
    | _ => none

/-- Restrict a message list to one episode's events. -/
def epiFilter (eid : Nat) (l : List LifecycleMsg) : List LifecycleMsg :=
  l.filter (fun m => decide (m.episodeId = eid))

/-- A message list is in stage order when stage positions never decrease. -/
@[reducible]
def stageOrdered (l : List LifecycleMsg) : Prop :=
  l.Pairwise (fun a b => a.stage.idx ≤ b.stage.idx)

/-! ## CommunityAggregator -/

/-- Modelled from the spec: one entry of a zone's active-episode set — a
device with a non-terminal episode and its detection timestamp. -/
structure ActiveEpisode where
  deviceId : Nat
  episodeId : Nat
  detectedAt : Nat
deriving DecidableEq, Repr

/-- Modelled from the spec: the missing `CommunityAggregator`'s
configuration (`clusterThreshold` default 3, correlation window default
3 minutes, sliding temporal window default 15 minutes). -/
structure AggConfig where
  clusterThreshold : Nat
  correlationWindow : Nat
  slidingWindow : Nat
deriving DecidableEq, Repr

/-- The spec's default aggregator configuration. -/
def defaultAggConfig : AggConfig := ⟨3, 180, 900⟩

/-- Number of active episodes whose detection timestamp falls within the
correlation window started at `e`'s detection. -/
def clusterCountAt (cfg : AggConfig) (active : List ActiveEpisode) (e : ActiveEpisode) : Nat :=
  (active.filter (fun f =>
    decide (e.detectedAt ≤ f.detectedAt ∧
      f.detectedAt ≤ e.detectedAt + cfg.correlationWindow))).length

/-- Modelled from the spec: size of the largest correlated cluster — the
most devices whose detection timestamps fall within one correlation window
of each other. -/
def correlatedClusterSize (cfg : AggConfig) (active : List ActiveEpisode) : Nat :=
  (active.map (clusterCountAt cfg active)).foldr max 0

/-- Zone risk levels. -/
inductive RiskLevel where
  | low
  | moderate
  | high
deriving DecidableEq, Repr

/-- Modelled from the spec: the risk level mapping — no active episodes is
`low`; a correlated cluster of at least `clusterThreshold` devices, or at
least 5 active episodes, is `high`; anything else with at least one active
episode is `moderate`. -/
def riskLevel (cfg : AggConfig) (active : List ActiveEpisode) : RiskLevel :=
  if active.length = 0 then .low
  else if cfg.clusterThreshold ≤ correlatedClusterSize cfg active ∨ 5 ≤ active.length then .high
  else .moderate

/-- Modelled from the spec: a zone's view held by the aggregator — the set
of currently non-terminal episodes, one entry per device. -/
structure ZoneState where
  zoneId : Nat
  active : List ActiveEpisode
deriving DecidableEq, Repr

/-- Modelled from the spec: a lifecycle event as consumed by the
aggregator, carrying the episode's device, zone and detection time. -/
structure AggEvent where
  episodeId : Nat
  deviceId : Nat
  zoneId : Nat
  stage : Stage
  detectedAt : Nat
deriving DecidableEq, Repr

/-- Modelled from the spec: the aggregator's update on a lifecycle event —
insert the device on `Detected` (idempotently, tolerating duplicate
delivery), remove it on `Resolved`; `Escalated` episodes remain active for
risk purposes until externally cleared, and other stages leave the set
unchanged. -/
def applyAggEvent (z : ZoneState) (ev : AggEvent) : ZoneState :=
  if ev.zoneId = z.zoneId then
    match ev.stage with
    | .detected =>
      if z.active.any (fun a => a.deviceId == ev.deviceId) then z
      else { z with active := z.active ++ [⟨ev.deviceId, ev.episodeId, ev.detectedAt⟩] }
    | .resolved =>
      { z with active := z.active.filter (fun a => !(a.deviceId == ev.deviceId)) }
    | _ => z
  else z

/-- A zone's `activeEpisodeCount`. -/
def activeEpisodeCount (z : ZoneState) : Nat := z.active.length

/-! ## CustomCursor (apps/web/src/components/CustomCursor.tsx) -/

/-- A 2-D position, with exact (rational) coordinates standing for the
source's numeric coordinates. -/
structure Vec2 where
  x : ℚ
  y : ℚ
deriving DecidableEq, Repr

/-- The smoothing coefficient `0.15` of `CustomCursor.animate`. -/
def trailCoefficient : ℚ := 0.15

/-- One coordinate of the per-frame trail update
`trailPos.current.x += (pos.current.x - trailPos.current.x) * 0.15`. -/
def trailUpdate (p t : ℚ) : ℚ := t + (p - t) * trailCoefficient

/-- The per-frame `animate` step of `CustomCursor.tsx` applied to the trail
position, coordinate-wise. -/
def animateStep (pos trailPos : Vec2) : Vec2 :=
  ⟨trailUpdate pos.x trailPos.x, trailUpdate pos.y trailPos.y⟩

/-! ## Helper lemmas -/

/-- Folding `max` over a list bounded by `n` stays bounded by `n`. -/
theorem foldr_max_le (n : Nat) :
    ∀ l : List Nat, (∀ x ∈ l, x ≤ n) → l.foldr max 0 ≤ n := by
  intro l
  induction l with
  | nil => intro _; exact Nat.zero_le n
  | cons x xs ih =>
    intro h
    simp only [List.foldr_cons]
    exact max_le (h x (List.mem_cons_self x xs))
      (ih fun y hy => h y (List.mem_cons_of_mem x hy))

/-- The largest correlated cluster never exceeds the number of active
episodes. -/
theorem correlatedClusterSize_le_length (cfg : AggConfig) (active : List ActiveEpisode) :
    correlatedClusterSize cfg active ≤ active.length := by
  apply foldr_max_le
  intro x hx
  rcases List.mem_map.mp hx with ⟨e, _, rfl⟩
  exact List.length_filter_le _ _

/-- Removing the entries of one device from a duplicate-free active set
removes exactly one entry. -/
theorem filter_out_unique_device :
    ∀ (l : List ActiveEpisode) (d : Nat),
      l.Pairwise (fun a b => a.deviceId ≠ b.deviceId) →
      (∃ e ∈ l, e.deviceId = d) →
      (l.filter (fun a => !(a.deviceId == d))).length + 1 = l.length := by
  intro l
  induction l with
  | nil =>
    intro d _ hex
    rcases hex with ⟨e, he, _⟩
    exact absurd he (List.not_mem_nil e)
  | cons x xs ih =>
    intro d hpw hex
    rcases List.pairwise_cons.mp hpw with ⟨hx, hxs⟩
    by_cases hxd : x.deviceId = d
    · have hall : ∀ a ∈ xs, (!(a.deviceId == d)) = true := by
        intro a ha
        have : x.deviceId ≠ a.deviceId := hx a ha
        simp only [Bool.not_eq_true', beq_eq_false_iff_ne]
        intro hc
        exact this (by rw [hxd, hc])
      have hkeep : xs.filter (fun a => !(a.deviceId == d)) = xs :=
        List.filter_eq_self.mpr hall
      simp [List.filter_cons, hxd, hkeep]
    · have hex' : ∃ e ∈ xs, e.deviceId = d := by
        rcases hex with ⟨e, he, hed⟩
        rcases List.mem_cons.mp he with rfl | hmem
        · exact absurd hed hxd
        · exact ⟨e, hmem, hed⟩
      have := ih d hxs hex'
      simp only [List.filter_cons, Bool.not_eq_true', beq_eq_false_iff_ne, ne_eq, hxd,
        not_false_eq_true, if_pos, List.length_cons]
      omega

/-- Unfolding equation: feeding no samples changes nothing. -/
theorem feedSamples_nil (cfg : ScorerConfig) (st : DeviceState) :
    feedSamples cfg st [] = (st, []) := rfl

/-- Unfolding equation: feeding `s :: rest` pushes `s` then feeds `rest`. -/
theorem feedSamples_cons (cfg : ScorerConfig) (st : DeviceState) (s : VitalsSample)
    (rest : List VitalsSample) :
    feedSamples cfg st (s :: rest) =
      ((feedSamples cfg (pushSample cfg st s).1 rest).1,
        (pushSample cfg st s).2 ++ (feedSamples cfg (pushSample cfg st s).1 rest).2) := rfl

/-- Unfolding equation: pushing a sample while an episode is open only
updates the window and emits nothing. -/
theorem pushSample_some (cfg : ScorerConfig) (s : VitalsSample) (w : List VitalsSample)
    (stg : Stage) :
    pushSample cfg ⟨w, some stg⟩ s =
      (⟨(w ++ [s]).filter (fun t => decide (s.timestamp ≤ t.timestamp + cfg.windowSize)),
        some stg⟩, []) := rfl

/-- Unfolding equation: pushing a sample with no open episode scores the
refreshed window and opens an episode exactly when the scorer fires. -/
theorem pushSample_none (cfg : ScorerConfig) (s : VitalsSample) (w : List VitalsSample) :
    pushSample cfg ⟨w, none⟩ s =
      (if isAnomalousWindow cfg
          ((w ++ [s]).filter (fun t => decide (s.timestamp ≤ t.timestamp + cfg.windowSize))) then
        (⟨(w ++ [s]).filter (fun t => decide (s.timestamp ≤ t.timestamp + cfg.windowSize)),
          some .intervening⟩, [.detected, .interventionStarted])
      else
        (⟨(w ++ [s]).filter (fun t => decide (s.timestamp ≤ t.timestamp + cfg.windowSize)),
          none⟩, [])) := rfl

/-- Once an episode is open, a pure sample feed emits no further events
and the episode stays open. -/
theorem feed_open_no_events (cfg : ScorerConfig) :
    ∀ (l w : List VitalsSample) (stg : Stage),
      (feedSamples cfg ⟨w, some stg⟩ l).2 = [] ∧
      (feedSamples cfg ⟨w, some stg⟩ l).1.openStage = some stg := by
  intro l
  induction l with
  | nil => intro w stg; exact ⟨rfl, rfl⟩
  | cons s rest ih =>
    intro w stg
    rw [feedSamples_cons, pushSample_some]
    refine ⟨?_, (ih _ stg).2⟩
    simpa using (ih _ stg).1

/-- A pure sample feed starting with no open episode emits at most one
`detected` event. -/
theorem feed_detect_le_one (cfg : ScorerConfig) :
    ∀ (l w : List VitalsSample),
      countDetected (feedSamples cfg ⟨w, none⟩ l).2 ≤ 1 := by
  intro l
  induction l with
  | nil => intro w; rw [feedSamples_nil]; simp [countDetected]
  | cons s rest ih =>
    intro w
    rw [feedSamples_cons, pushSample_none]
    by_cases ha : isAnomalousWindow cfg
        ((w ++ [s]).filter (fun t => decide (s.timestamp ≤ t.timestamp + cfg.windowSize))) = true
    · rw [if_pos ha]
      have hopen := feed_open_no_events cfg rest
        ((w ++ [s]).filter (fun t => decide (s.timestamp ≤ t.timestamp + cfg.windowSize)))
        .intervening
      simp only [countDetected, List.count_append, hopen.1]
      decide
    · rw [if_neg ha]
      simpa [countDetected] using ih _

/-- If a feed from a prefix window fires no detection, the window simply
accumulates every sample (nothing is evicted when all samples lie within
one sliding window of each other), the lane stays open-episode-free, and
the final full window is scored not anomalous. -/
theorem feed_no_fire_window (cfg : ScorerConfig) :
    ∀ (suf pre : List VitalsSample),
      (∀ s ∈ suf, ∀ t ∈ pre ++ suf, s.timestamp ≤ t.timestamp + cfg.windowSize) →
      countDetected (feedSamples cfg ⟨pre, none⟩ suf).2 = 0 →
      (feedSamples cfg ⟨pre, none⟩ suf).1 = ⟨pre ++ suf, none⟩ ∧
      (suf ≠ [] → isAnomalousWindow cfg (pre ++ suf) = false) := by
  intro suf
  induction suf with
  | nil =>
    intro pre _ _
    rw [feedSamples_nil]
    exact ⟨by simp, fun h => absurd rfl h⟩
  | cons s rest ih =>
    intro pre hfit h0
    rw [feedSamples_cons, pushSample_none] at h0 ⊢
    have hw : (pre ++ [s]).filter
        (fun t => decide (s.timestamp ≤ t.timestamp + cfg.windowSize)) = pre ++ [s] := by
      apply List.filter_eq_self.mpr
      intro t ht
      rcases List.mem_append.mp ht with htp | hts
      · exact decide_eq_true
          (hfit s (List.mem_cons_self s rest) t (List.mem_append_left _ htp))
      · have hts' : t = s := by simpa using hts
        subst hts'
        exact decide_eq_true (hfit t (List.mem_cons_self t rest) t
          (List.mem_append_right _ (List.mem_cons_self t rest)))
    rw [hw] at h0 ⊢
    by_cases ha : isAnomalousWindow cfg (pre ++ [s]) = true
    · rw [if_pos ha] at h0
      exfalso
      simp [countDetected] at h0
    · have hfalse : isAnomalousWindow cfg (pre ++ [s]) = false := by
        simpa using ha
      rw [if_neg ha] at h0 ⊢
      have hfit' : ∀ s' ∈ rest, ∀ t ∈ (pre ++ [s]) ++ rest,
          s'.timestamp ≤ t.timestamp + cfg.windowSize := by
        intro s' hs' t ht
        apply hfit s' (List.mem_cons_of_mem s hs')
        rw [List.append_assoc] at ht
        simpa using ht
      have h0' : countDetected (feedSamples cfg ⟨pre ++ [s], none⟩ rest).2 = 0 := by
        simpa [countDetected] using h0
      have hih := ih (pre ++ [s]) hfit' h0'
      constructor
      · have := hih.1
        simpa [List.append_assoc] using this
      · intro _
        rcases eq_or_ne rest [] with hrest | hrest
        · subst hrest
          simpa using hfalse
        · have := hih.2 hrest
          simpa [List.append_assoc] using this

/-- Helper: on an all-elevated window the contiguous-run scan spans from
the run's start to the window's last sample. -/
theorem elevatedSpanAux_all_elevated (cfg : ScorerConfig) :
    ∀ (l : List VitalsSample) (a b : Nat),
      (∀ s ∈ l, cfg.threshold < s.value) →
      elevatedSpanAux cfg (some (a, b)) l = lastTs b l - a := by
  intro l
  induction l with
  | nil => intro a b _; rfl
  | cons s rest ih =>
    intro a b h
    have hs : cfg.threshold < s.value := h s (List.mem_cons_self s rest)
    simp only [elevatedSpanAux, if_pos hs]
    rw [ih a s.timestamp (fun x hx => h x (List.mem_cons_of_mem s hx))]
    rfl

/-- On an all-elevated window the longest elevated span is the whole window
duration. -/
theorem maxElevatedSpan_all_elevated (cfg : ScorerConfig) (l : List VitalsSample)
    (h : ∀ s ∈ l, cfg.threshold < s.value) :
    maxElevatedSpan cfg l = windowDuration l := by
  cases l with
  | nil => rfl
  | cons s rest =>
    rw [maxElevatedSpan]
    simp only [elevatedSpanAux, if_pos (h s (List.mem_cons_self s rest))]
    rw [elevatedSpanAux_all_elevated cfg rest s.timestamp s.timestamp
      (fun x hx => h x (List.mem_cons_of_mem s hx))]
    rfl

/-- One recipient's share of publishing the same event twice collapses to a
single share, whatever the two transports do. -/
theorem deliverTo_idem (limit : Nat) (tr1 tr2 : Transport) (ev : LifecycleMsg)
    (r : RecipientState) :
    deliverTo limit tr2 ev (deliverTo limit tr1 ev r) = deliverTo limit tr1 ev r := by
  unfold deliverTo
  by_cases hg : r.groupId = some ev.groupId
  · by_cases hs : (ev.episodeId, ev.stage) ∈ r.seen
    · simp [hg, hs]
    · by_cases hc : (r.connected && r.pending.isEmpty && tr1 r.recipientId ev) = true
      · simp [hg, hs, hc]
      · simp [hg, hs, hc]
  · simp [hg]

/-- `deliverTo` never changes a recipient's identity. -/
theorem deliverTo_recipientId (limit : Nat) (tr : Transport) (ev : LifecycleMsg)
    (r : RecipientState) :
    (deliverTo limit tr ev r).recipientId = r.recipientId := by
  unfold deliverTo
  split_ifs <;> rfl

/-- Filtering after a pointwise map that never turns a rejected element
into a kept one yields at most as many elements. -/
theorem length_filter_map_le {α : Type} (f : α → α) (p : α → Bool)
    (h : ∀ x, p (f x) = true → p x = true) :
    ∀ l : List α, ((l.map f).filter p).length ≤ (l.filter p).length := by
  intro l
  induction l with
  | nil => simp
  | cons x xs ih =>
    simp only [List.map_cons, List.filter_cons]
    cases hfx : p (f x) with
    | false =>
      cases hx : p x with
      | false => simpa [hfx, hx] using ih
      | true =>
        simp only [hfx, hx, if_pos, if_neg, Bool.false_eq_true, List.length_cons]
        exact Nat.le_succ_of_le ih
    | true =>
      simp only [hfx, h x hfx, if_pos, List.length_cons]
      exact Nat.succ_le_succ ih

/-- `setStage` never turns a terminal episode into an open one, so it never
increases the number of open episodes. -/
theorem setStage_openCount_le (eid : Nat) (stg : Stage) (t : Nat) (l : List Episode) :
    ((setStage eid stg t l).filter (fun e => !e.stage.isTerminal)).length ≤
      (l.filter (fun e => !e.stage.isTerminal)).length := by
  apply length_filter_map_le
  intro e
  by_cases hg : (e.episodeId == eid && !e.stage.isTerminal) = true
  · rw [if_pos hg]
    intro _
    have hg' : (e.episodeId == eid) = true ∧ (!e.stage.isTerminal) = true := by
      simpa using hg
    exact hg'.2
  · rw [if_neg hg]
    exact id

/-- Each machine step preserves the at-most-one-open-episode bound. -/
theorem step_preserves_openCount (m : DeviceMachine) (inp : MachineInput)
    (h : openCount m ≤ 1) : openCount (step m inp).1 ≤ 1 := by
  have hic : ∀ t : Nat, openCount (interventionComplete m t).1 ≤ 1 := by
    intro t
    rw [interventionComplete]
    cases hfo : findOpen m with
    | none => exact h
    | some e =>
      by_cases hstg : e.stage = .intervening
      · simp only [hstg, if_pos]
        exact le_trans (setStage_openCount_le e.episodeId .awaitingCheckIn t m.episodes) h
      · simp only [if_neg hstg]
        exact h
  have hesc : ∀ t : Nat, openCount (escalateOpen m t).1 ≤ 1 := by
    intro t
    rw [escalateOpen]
    cases hfo : findOpen m with
    | none => exact h
    | some e =>
      by_cases hstg : e.stage = .awaitingCheckIn
      · simp only [hstg, if_pos]
        exact le_trans (setStage_openCount_le e.episodeId .escalated t m.episodes) h
      · simp only [if_neg hstg]
        exact h
  cases inp with
  | anomalous t =>
    rw [step]
    cases hfo : findOpen m with
    | some e => exact h
    | none =>
      have hnone : ∀ e ∈ m.episodes, ¬((!e.stage.isTerminal) = true) := by
        intro e he
        have := List.find?_eq_none.mp hfo e he
        simpa using this
      have hnil : m.episodes.filter (fun e => !e.stage.isTerminal) = [] :=
        List.filter_eq_nil_iff.mpr hnone
      simp only [openCount]
      rw [List.filter_cons, hnil]
      simp [Stage.isTerminal]
  | interventionDone t => exact hic t
  | interventionTimeout t => exact hic t
  | checkIn b t =>
    rw [step]
    cases hfo : findOpen m with
    | none => exact h
    | some e =>
      by_cases hstg : e.stage = .awaitingCheckIn
      · cases b with
        | true =>
          simp only [hstg, if_pos, if_true]
          exact le_trans (setStage_openCount_le e.episodeId .escalated t m.episodes) h
        | false =>
          simp only [hstg, if_pos, if_false]
          exact le_trans (setStage_openCount_le e.episodeId .resolved t m.episodes) h
      · simp only [if_neg hstg]
        exact h
  | checkInTimeout t => exact hesc t

/-- `epiFilter` distributes over append. -/
theorem epiFilter_append (eid : Nat) (l1 l2 : List LifecycleMsg) :
    epiFilter eid (l1 ++ l2) = epiFilter eid l1 ++ epiFilter eid l2 := by
  simp [epiFilter]

/-- One publish share preserves the invariant: a recipient's episode-`eid`
events, delivered then pending, form a subsequence of the episode-`eid`
events published so far. -/
theorem deliverTo_inv (limit : Nat) (tr : Transport) (ev : LifecycleMsg) (eid : Nat)
    (base : List LifecycleMsg) (r : RecipientState)
    (h : epiFilter eid (r.delivered ++ r.pending) <+ epiFilter eid base) :
    epiFilter eid ((deliverTo limit tr ev r).delivered ++ (deliverTo limit tr ev r).pending) <+
      epiFilter eid (base ++ [ev]) := by
  have hbase : epiFilter eid base <+ epiFilter eid (base ++ [ev]) := by
    rw [epiFilter_append eid base [ev]]
    exact List.sublist_append_left _ _
  have hext : epiFilter eid (r.delivered ++ r.pending) <+ epiFilter eid (base ++ [ev]) :=
    h.trans hbase
  unfold deliverTo
  split_ifs with hg hs hc
  · exact hext
  · -- immediate delivery: the backlog was empty
    have hpe : r.pending = [] := by
      have hc' := hc
      simp only [Bool.and_eq_true] at hc'
      exact List.isEmpty_iff.mp hc'.1.2
    simp only [hpe, List.append_nil] at h ⊢
    rw [epiFilter_append eid r.delivered [ev], epiFilter_append eid base [ev]]
    exact List.Sublist.append h (List.Sublist.refl _)
  · -- backlog: the event joins pending, oldest dropped first
    have h1 : r.delivered ++ dropOldest limit (r.pending ++ [ev]) <+
        r.delivered ++ (r.pending ++ [ev]) :=
      List.Sublist.append_left (List.drop_sublist _ _) _
    have h2 : epiFilter eid (r.delivered ++ (r.pending ++ [ev])) <+
        epiFilter eid (base ++ [ev]) := by
      rw [← List.append_assoc,
        epiFilter_append eid (r.delivered ++ r.pending) [ev],
        epiFilter_append eid base [ev]]
      exact List.Sublist.append h (List.Sublist.refl _)
    exact (List.Sublist.filter _ h1).trans h2
  · exact hext

/-- `publishedMsgs` splits at the head operation. -/
theorem publishedMsgs_cons (op : RelayOp) (rest : List RelayOp) :
    publishedMsgs (op :: rest) = publishedMsgs [op] ++ publishedMsgs rest := by
  cases op <;> simp [publishedMsgs]

/-- Every boundary operation preserves the subsequence invariant. -/
theorem applyOp_inv (eid : Nat) (op : RelayOp) (base : List LifecycleMsg)
    (b : RelayBroadcaster)
    (h : ∀ r ∈ b.recipients, epiFilter eid (r.delivered ++ r.pending) <+ epiFilter eid base) :
    ∀ r ∈ (applyOp b op).recipients,
      epiFilter eid (r.delivered ++ r.pending) <+
        epiFilter eid (base ++ publishedMsgs [op]) := by
  cases op with
  | publishOp tr ev =>
    intro r hr
    simp only [applyOp, publish] at hr
    rcases List.mem_map.mp hr with ⟨r0, hr0, rfl⟩
    simpa [publishedMsgs] using deliverTo_inv b.backlogLimit tr ev eid base r0 (h r0 hr0)
  | reconnectOp rid now =>
    intro r hr
    simp only [applyOp, reconnect] at hr
    rcases List.mem_map.mp hr with ⟨r0, hr0, rfl⟩
    have h0 := h r0 hr0
    by_cases hid : r0.recipientId = rid
    · rw [if_pos hid]
      have h1 : r0.delivered ++ r0.pending.filter (fun ev => decide (now ≤ ev.createdAt + b.ttl)) <+
          r0.delivered ++ r0.pending :=
        List.Sublist.append_left (List.filter_sublist _) _
      have h2 : epiFilter eid
          (r0.delivered ++ r0.pending.filter (fun ev => decide (now ≤ ev.createdAt + b.ttl))) <+
          epiFilter eid base := (List.Sublist.filter _ h1).trans h0
      simpa [publishedMsgs, epiFilter] using h2
    · rw [if_neg hid]
      simpa [publishedMsgs] using h0
  | disconnectOp rid =>
    intro r hr
    simp only [applyOp, disconnect] at hr
    rcases List.mem_map.mp hr with ⟨r0, hr0, rfl⟩
    have h0 := h r0 hr0
    by_cases hid : r0.recipientId = rid
    · rw [if_pos hid]
      simpa [publishedMsgs] using h0
    · rw [if_neg hid]
      simpa [publishedMsgs] using h0
  | subscribeOp rid gid =>
    intro r hr
    simp only [applyOp, subscribeRecipient] at hr
    rcases List.mem_map.mp hr with ⟨r0, hr0, rfl⟩
    have h0 := h r0 hr0
    by_cases hid : r0.recipientId = rid
    · rw [if_pos hid]
      simpa [publishedMsgs] using h0
    · rw [if_neg hid]
      simpa [publishedMsgs] using h0
  | unsubscribeOp rid =>
    intro r hr
    simp only [applyOp, unsubscribeRecipient] at hr
    rcases List.mem_map.mp hr with ⟨r0, hr0, rfl⟩
    have h0 := h r0 hr0
    by_cases hid : r0.recipientId = rid
    · rw [if_pos hid]
      simpa [publishedMsgs] using h0
    · rw [if_neg hid]
      simpa [publishedMsgs] using h0

/-- Running any operation sequence keeps each recipient's episode-`eid`
events a subsequence of the episode-`eid` events ever published. -/
theorem runOps_inv (eid : Nat) :
    ∀ (ops : List RelayOp) (b : RelayBroadcaster) (base : List LifecycleMsg),
      (∀ r ∈ b.recipients, epiFilter eid (r.delivered ++ r.pending) <+ epiFilter eid base) →
      ∀ r ∈ (runOps b ops).recipients,
        epiFilter eid (r.delivered ++ r.pending) <+
          epiFilter eid (base ++ publishedMsgs ops) := by
  intro ops
  induction ops with
  | nil =>
    intro b base h r hr
    simpa [runOps, publishedMsgs] using h r (by simpa [runOps] using hr)
  | cons op rest ih =>
    intro b base h r hr
    have hstep := applyOp_inv eid op base b h
    have hrest := ih (applyOp b op) (base ++ publishedMsgs [op]) hstep r
      (by simpa [runOps] using hr)
    rw [publishedMsgs_cons, ← List.append_assoc]
    exact hrest

/-! ## Claim theorems -/

/-- C2: for every sample window whose duration is strictly below the
configured minimum duration `Wmin`, the anomaly scorer returns
`isAnomalous = false`; no window shorter than `Wmin` is scored anomalous. -/
theorem scorer_short_window_not_anomalous (cfg : ScorerConfig)
    (w : List VitalsSample) (h : windowDuration w < cfg.wmin) :
    isAnomalousWindow cfg w = false := by
  simp [isAnomalousWindow, h]

/-- Witness for C2: a concrete two-sample window of duration 30 s against a
scorer with `Wmin = 60` s is scored not anomalous. -/
theorem scorer_short_window_not_anomalous_witness :
    windowDuration [⟨1, 150, 0⟩, ⟨1, 150, 30⟩] < (60 : Nat) ∧
      isAnomalousWindow ⟨60, 100, 120, 300⟩ [⟨1, 150, 0⟩, ⟨1, 150, 30⟩] = false := by
  refine ⟨by decide, ?_⟩
  exact scorer_short_window_not_anomalous ⟨60, 100, 120, 300⟩ _ (by decide)

/-- C3: debouncing — for every run of samples on one device's lane that
are all above threshold, lie within one sliding window of each other, and
cover at least the minimum window duration and the sustained-elevation
duration, exactly one `episode.detected` event is emitted, not one per
above-threshold sample. -/
theorem sustained_elevation_single_detection (cfg : ScorerConfig)
    (l : List VitalsSample) (hne : l ≠ [])
    (hfit : ∀ s ∈ l, ∀ t ∈ l, s.timestamp ≤ t.timestamp + cfg.windowSize)
    (helev : ∀ s ∈ l, cfg.threshold < s.value)
    (hwmin : cfg.wmin ≤ windowDuration l)
    (hsus : cfg.sustained ≤ windowDuration l) :
    countDetected (feedSamples cfg initDevice l).2 = 1 := by
  simp only [initDevice]
  have hle := feed_detect_le_one cfg l []
  by_cases h0 : countDetected (feedSamples cfg ⟨[], none⟩ l).2 = 0
  · exfalso
    have hfit0 : ∀ s ∈ l, ∀ t ∈ ([] : List VitalsSample) ++ l,
        s.timestamp ≤ t.timestamp + cfg.windowSize := by
      simpa using hfit
    have hoff := (feed_no_fire_window cfg l [] hfit0 h0).2 hne
    rw [List.nil_append] at hoff
    have hon : isAnomalousWindow cfg l = true := by
      rw [isAnomalousWindow, if_neg (by omega : ¬ windowDuration l < cfg.wmin),
        maxElevatedSpan_all_elevated cfg l helev]
      exact decide_eq_true hsus
    rw [hoff] at hon
    exact Bool.false_ne_true hon
  · omega

/-- Witness for C3: the spec's 30-sample, 3-minute all-elevated run yields
exactly one `episode.detected` event. -/
theorem sustained_elevation_single_detection_witness :
    debounceSamples ≠ [] ∧
    countDetected (feedSamples debounceConfig initDevice debounceSamples).2 = 1 :=
  ⟨by decide,
   sustained_elevation_single_detection debounceConfig debounceSamples (by decide)
     (by decide) (by decide) (by decide) (by decide)⟩

/-- C7: for every recipient and every episode, whenever the episode's
lifecycle events are published in stage order (as the state machine emits
them), the events of that episode that reach the recipient are delivered in
stage order, over any interleaving of publishes, reconnects, disconnects
and (un)subscribes; nothing is claimed across episodes. -/
theorem same_episode_stage_order (eid : Nat) (ops : List RelayOp) (b0 : RelayBroadcaster)
    (hinit : ∀ r ∈ b0.recipients, r.delivered = [] ∧ r.pending = [])
    (horder : stageOrdered (epiFilter eid (publishedMsgs ops))) :
    ∀ r ∈ (runOps b0 ops).recipients, stageOrdered (epiFilter eid r.delivered) := by
  intro r hr
  have hbase : ∀ r0 ∈ b0.recipients,
      epiFilter eid (r0.delivered ++ r0.pending) <+
        epiFilter eid ([] : List LifecycleMsg) := by
    intro r0 hr0
    rw [(hinit r0 hr0).1, (hinit r0 hr0).2]
    exact List.Sublist.refl _
  have hsub := runOps_inv eid ops b0 [] hbase r hr
  rw [List.nil_append] at hsub
  have hdel : epiFilter eid r.delivered <+ epiFilter eid (r.delivered ++ r.pending) := by
    rw [epiFilter_append eid r.delivered r.pending]
    exact List.sublist_append_left _ _
  exact List.Pairwise.sublist (hdel.trans hsub) horder

/-- Witness for C7: publishing `detected` then `intervening` for episode 5
to a connected subscriber delivers them in stage order. -/
theorem same_episode_stage_order_witness :
    stageOrdered (epiFilter 5
      (⟨7, some 1, true, [⟨5, .detected, 1, 0⟩, ⟨5, .intervening, 1, 1⟩],
        [(5, .intervening), (5, .detected)], []⟩ : RecipientState).delivered) :=
  same_episode_stage_order 5
    [.publishOp (fun _ _ => true) ⟨5, .detected, 1, 0⟩,
     .publishOp (fun _ _ => true) ⟨5, .intervening, 1, 1⟩]
    ⟨[⟨7, some 1, true, [], [], []⟩], 20, 120⟩
    (by decide) (by decide)
    ⟨7, some 1, true, [⟨5, .detected, 1, 0⟩, ⟨5, .intervening, 1, 1⟩],
      [(5, .intervening), (5, .detected)], []⟩
    (by decide)

/-- C5: the zone risk mapping — an empty active set is `low`; one or two
active episodes that form no correlated cluster are `moderate` (default
configuration); a correlated cluster of at least `clusterThreshold` devices
or at least five active episodes is `high`.  In particular three devices
detected at t = 0 s, 60 s, 150 s (within the 3-minute correlation window,
threshold 3) give `high`, while the same three detections at t = 0 s,
600 s, 1200 s give `moderate`. -/
theorem zone_risk_mapping :
    (∀ cfg : AggConfig, riskLevel cfg [] = .low) ∧
    (∀ active : List ActiveEpisode, 1 ≤ active.length → active.length ≤ 2 →
      riskLevel defaultAggConfig active = .moderate) ∧
    (∀ (cfg : AggConfig) (active : List ActiveEpisode), 1 ≤ cfg.clusterThreshold →
      cfg.clusterThreshold ≤ correlatedClusterSize cfg active ∨ 5 ≤ active.length →
      riskLevel cfg active = .high) ∧
    riskLevel defaultAggConfig [⟨1, 1, 0⟩, ⟨2, 2, 60⟩, ⟨3, 3, 150⟩] = .high ∧
    riskLevel defaultAggConfig [⟨1, 1, 0⟩, ⟨2, 2, 600⟩, ⟨3, 3, 1200⟩] = .moderate := by
  refine ⟨?_, ?_, ?_, by decide, by decide⟩
  · intro cfg
    simp [riskLevel]
  · intro active h1 h2
    have hcl := correlatedClusterSize_le_length defaultAggConfig active
    have hne : ¬ active.length = 0 := by omega
    have hhigh : ¬ (defaultAggConfig.clusterThreshold ≤
        correlatedClusterSize defaultAggConfig active ∨ 5 ≤ active.length) := by
      push_neg
      refine ⟨?_, by omega⟩
      show correlatedClusterSize defaultAggConfig active < 3
      omega
    rw [riskLevel, if_neg hne, if_neg hhigh]
  · intro cfg active h1 hd
    have hcl := correlatedClusterSize_le_length cfg active
    have hne : ¬ active.length = 0 := by
      rcases hd with hd | hd <;> omega
    rw [riskLevel, if_neg hne, if_pos hd]

/-- Witness for C5: one lone active episode is `moderate`; three devices
detected within 20 s of each other are a correlated cluster and `high`. -/
theorem zone_risk_mapping_witness :
    riskLevel defaultAggConfig [⟨1, 1, 0⟩] = .moderate ∧
    riskLevel defaultAggConfig [⟨1, 1, 0⟩, ⟨2, 2, 10⟩, ⟨3, 3, 20⟩] = .high :=
  ⟨zone_risk_mapping.2.1 [⟨1, 1, 0⟩] (by decide) (by decide),
   zone_risk_mapping.2.2.1 defaultAggConfig [⟨1, 1, 0⟩, ⟨2, 2, 10⟩, ⟨3, 3, 20⟩]
     (by decide) (Or.inl (by decide))⟩

/-- C6: publishing the same lifecycle event (identified by
`(episodeId, stage)`) twice is idempotent — the broadcaster state after the
second publish equals the state after the first, so every recipient gets at
most one observable notification, the same as from publishing once. -/
theorem publish_idempotent (b : RelayBroadcaster) (tr1 tr2 : Transport)
    (ev : LifecycleMsg) :
    publish (publish b tr1 ev) tr2 ev = publish b tr1 ev := by
  simp [publish, List.map_map, Function.comp_def, deliverTo_idem]

/-- C8: a delivery attempt that fails with a transport error never fails
`publish` — every recipient is still processed (the roster is intact) —
and its whole effect on the failing recipient is an update of that
recipient's pending delivery state (the event joins the bounded backlog;
the delivered notifications, connection and subscription are untouched). -/
theorem delivery_failure_only_pending (b : RelayBroadcaster) (tr : Transport)
    (ev : LifecycleMsg) (r : RecipientState)
    (hsub : r.groupId = some ev.groupId)
    (hseen : (ev.episodeId, ev.stage) ∉ r.seen)
    (hfail : tr r.recipientId ev = false) :
    (publish b tr ev).recipients.map RecipientState.recipientId =
      b.recipients.map RecipientState.recipientId ∧
    deliverTo b.backlogLimit tr ev r =
      { r with pending := dropOldest b.backlogLimit (r.pending ++ [ev]),
               seen := (ev.episodeId, ev.stage) :: r.seen } := by
  constructor
  · simp [publish, List.map_map, Function.comp_def, deliverTo_recipientId]
  · unfold deliverTo
    simp [hsub, hseen, hfail]

/-- Witness for C8: a transport that always errors leaves a connected
recipient's delivered list empty and queues the event as pending. -/
theorem delivery_failure_only_pending_witness :
    (⟨7, some 1, true, [], [], []⟩ : RecipientState).groupId =
      some (⟨5, .detected, 1, 0⟩ : LifecycleMsg).groupId ∧
    deliverTo 20 (fun _ _ => false) ⟨5, .detected, 1, 0⟩ ⟨7, some 1, true, [], [], []⟩ =
      ⟨7, some 1, true, [], [(5, .detected)], [⟨5, .detected, 1, 0⟩]⟩ := by
  refine ⟨rfl, ?_⟩
  have h := (delivery_failure_only_pending ⟨[⟨7, some 1, true, [], [], []⟩], 20, 120⟩
    (fun _ _ => false) ⟨5, .detected, 1, 0⟩ ⟨7, some 1, true, [], [], []⟩
    rfl (by decide) rfl).2
  simpa [dropOldest] using h

/-- C9: for a zone whose active set has one entry per device, resolving one
active episode removes exactly that episode's device from the zone's
active-episode set, decreases `activeEpisodeCount` by exactly one, and
leaves every other device's entry in the set. -/
theorem resolve_frame_effect (z : ZoneState) (ev : AggEvent) (e : ActiveEpisode)
    (hz : ev.zoneId = z.zoneId) (hstage : ev.stage = .resolved)
    (hdev : e.deviceId = ev.deviceId) (hmem : e ∈ z.active)
    (hdistinct : z.active.Pairwise (fun a b => a.deviceId ≠ b.deviceId)) :
    activeEpisodeCount (applyAggEvent z ev) + 1 = activeEpisodeCount z ∧
    (∀ a ∈ z.active, a.deviceId ≠ ev.deviceId → a ∈ (applyAggEvent z ev).active) ∧
    (∀ a ∈ (applyAggEvent z ev).active, a.deviceId ≠ ev.deviceId ∧ a ∈ z.active) := by
  have happ : applyAggEvent z ev =
      { z with active := z.active.filter (fun a => !(a.deviceId == ev.deviceId)) } := by
    simp [applyAggEvent, hz, hstage]
  refine ⟨?_, ?_, ?_⟩
  · rw [happ]
    simp only [activeEpisodeCount]
    exact filter_out_unique_device z.active ev.deviceId hdistinct ⟨e, hmem, hdev⟩
  · intro a ha hne
    rw [happ]
    apply List.mem_filter.mpr
    exact ⟨ha, by simp [hne]⟩
  · intro a ha
    rw [happ] at ha
    have := List.mem_filter.mp ha
    refine ⟨?_, this.1⟩
    have hb := this.2
    simpa using hb

/-- Witness for C9: resolving device 1's episode in a two-device zone
leaves exactly device 2's entry. -/
theorem resolve_frame_effect_witness :
    activeEpisodeCount (applyAggEvent ⟨9, [⟨1, 1, 0⟩, ⟨2, 2, 60⟩]⟩ ⟨1, 1, 9, .resolved, 0⟩) + 1 =
      activeEpisodeCount ⟨9, [⟨1, 1, 0⟩, ⟨2, 2, 60⟩]⟩ ∧
    (⟨2, 2, 60⟩ : ActiveEpisode) ∈
      (applyAggEvent ⟨9, [⟨1, 1, 0⟩, ⟨2, 2, 60⟩]⟩ ⟨1, 1, 9, .resolved, 0⟩).active := by
  have h := resolve_frame_effect ⟨9, [⟨1, 1, 0⟩, ⟨2, 2, 60⟩]⟩ ⟨1, 1, 9, .resolved, 0⟩
    ⟨1, 1, 0⟩ rfl rfl rfl (by decide) (by decide)
  exact ⟨h.1, h.2.1 ⟨2, 2, 60⟩ (by decide) (by decide)⟩

/-- C10: in `CustomCursor`'s per-frame animate step the trail position is
updated by `trailPos := trailPos + (pos - trailPos) * 0.15` coordinate-wise,
so the current trail position is a fixed point exactly at the pointer, each
coordinate's distance to the pointer shrinks by the factor 0.85, and
whenever trail and pointer differ in a coordinate the new value lies
strictly between them. -/
theorem animate_trail_contraction :
    (∀ pos : Vec2, animateStep pos pos = pos) ∧
    (∀ p t : ℚ, p - trailUpdate p t = (0.85 : ℚ) * (p - t)) ∧
    (∀ p t : ℚ, t ≠ p → min t p < trailUpdate p t ∧ trailUpdate p t < max t p) ∧
    (∀ pos trailPos : Vec2,
      pos.x - (animateStep pos trailPos).x = (0.85 : ℚ) * (pos.x - trailPos.x) ∧
      pos.y - (animateStep pos trailPos).y = (0.85 : ℚ) * (pos.y - trailPos.y)) := by
  have hc : trailCoefficient = 3 / 20 := by norm_num [trailCoefficient]
  have h85 : (0.85 : ℚ) = 17 / 20 := by norm_num
  have hshrink : ∀ p t : ℚ, p - trailUpdate p t = (0.85 : ℚ) * (p - t) := by
    intro p t
    rw [trailUpdate, hc, h85]
    ring
  refine ⟨?_, hshrink, ?_, ?_⟩
  · intro pos
    cases pos
    simp [animateStep, trailUpdate]
  · intro p t hne
    rcases lt_trichotomy t p with h | h | h
    · rw [min_eq_left h.le, max_eq_right h.le, trailUpdate, hc]
      constructor <;> nlinarith
    · exact absurd h hne
    · rw [min_eq_right h.le, max_eq_left h.le, trailUpdate, hc]
      constructor <;> nlinarith
  · intro pos trailPos
    exact ⟨hshrink pos.x trailPos.x, hshrink pos.y trailPos.y⟩

/-- C1: for every serialized input sequence the device has at most one
non-terminal episode at any point, and while one is open an anomalous
detection is rejected — the machine state is unchanged and no event or
alert is produced, so no second episode is ever created. -/
theorem single_open_episode :
    (∀ inputs : List MachineInput, openCount (runMachine inputs) ≤ 1) ∧
    (∀ (m : DeviceMachine) (t : Nat), 1 ≤ openCount m →
      step m (.anomalous t) = (m, [], [])) := by
  constructor
  · have hfold : ∀ (inputs : List MachineInput) (m : DeviceMachine), openCount m ≤ 1 →
        openCount (inputs.foldl (fun m i => (step m i).1) m) ≤ 1 := by
      intro inputs
      induction inputs with
      | nil => intro m hm; exact hm
      | cons i rest ih =>
        intro m hm
        exact ih (step m i).1 (step_preserves_openCount m i hm)
    intro inputs
    exact hfold inputs initMachine (by decide)
  · intro m t h
    have hne : m.episodes.filter (fun e => !e.stage.isTerminal) ≠ [] := by
      intro hcontra
      rw [openCount, hcontra] at h
      simp at h
    obtain ⟨e, he⟩ := List.exists_mem_of_ne_nil _ hne
    have hmem := List.mem_filter.mp he
    have hsome : (findOpen m).isSome := by
      rw [findOpen]
      exact List.find?_isSome.mpr ⟨e, hmem.1, hmem.2⟩
    obtain ⟨e', hfo⟩ := Option.isSome_iff_exists.mp hsome
    rw [step, hfo]

/-- Witness for C1: two successive detections yield one open episode, and a
machine with one open episode rejects a further detection unchanged. -/
theorem single_open_episode_witness :
    openCount (runMachine [.anomalous 0, .anomalous 1]) ≤ 1 ∧
    step ⟨[⟨0, .intervening, 0, 0⟩], 1⟩ (.anomalous 5) =
      (⟨[⟨0, .intervening, 0, 0⟩], 1⟩, [], []) :=
  ⟨single_open_episode.1 [.anomalous 0, .anomalous 1],
   single_open_episode.2 ⟨[⟨0, .intervening, 0, 0⟩], 1⟩ 5 (by decide)⟩

/-- C4: an episode awaiting check-in whose check-in window elapses without
a qualifying check-in transitions to `Escalated` with exactly one Alert of
severity `high`; and every machine step that emits an `escalated` lifecycle
event creates exactly one Alert, of severity `high`, for that episode. -/
theorem checkin_timeout_escalation :
    (∀ (m : DeviceMachine) (e : Episode) (t : Nat),
      findOpen m = some e → e.stage = .awaitingCheckIn →
        (step m (.checkInTimeout t)).1.episodes =
          setStage e.episodeId .escalated t m.episodes ∧
        { e with stage := .escalated, lastTransitionAt := t } ∈
          (step m (.checkInTimeout t)).1.episodes ∧
        (step m (.checkInTimeout t)).2.1 = [⟨e.episodeId, .escalated⟩] ∧
        (step m (.checkInTimeout t)).2.2 = [⟨e.episodeId, .high⟩]) ∧
    (∀ (m : DeviceMachine) (inp : MachineInput) (eid : Nat),
      (⟨eid, .escalated⟩ : LifecycleEvent) ∈ (step m inp).2.1 →
        (step m inp).2.2 = [⟨eid, .high⟩]) := by
  constructor
  · intro m e t hfo hstg
    have hstep : step m (.checkInTimeout t) =
        (⟨setStage e.episodeId .escalated t m.episodes, m.nextId⟩,
         [⟨e.episodeId, .escalated⟩], [⟨e.episodeId, .high⟩]) := by
      simp [step, escalateOpen, hfo, hstg]
    have hmem : e ∈ m.episodes := List.mem_of_find?_eq_some hfo
    refine ⟨by rw [hstep], ?_, by rw [hstep], by rw [hstep]⟩
    rw [hstep]
    simp only [setStage]
    refine List.mem_map.mpr ⟨e, hmem, ?_⟩
    have hterm : e.stage.isTerminal = false := by rw [hstg]; rfl
    simp [hterm]
  · intro m inp eid hmem
    cases inp with
    | anomalous t =>
      rw [step] at hmem ⊢
      cases hfo : findOpen m with
      | some e => rw [hfo] at hmem; simp at hmem
      | none => rw [hfo] at hmem; simp at hmem
    | interventionDone t =>
      rw [step, interventionComplete] at hmem ⊢
      cases hfo : findOpen m with
      | some e =>
        rw [hfo] at hmem
        by_cases hstg : e.stage = .intervening <;> simp [hstg] at hmem
      | none => rw [hfo] at hmem; simp at hmem
    | interventionTimeout t =>
      rw [step, interventionComplete] at hmem ⊢
      cases hfo : findOpen m with
      | some e =>
        rw [hfo] at hmem
        by_cases hstg : e.stage = .intervening <;> simp [hstg] at hmem
      | none => rw [hfo] at hmem; simp at hmem
    | checkIn b t =>
      rw [step] at hmem ⊢
      cases hfo : findOpen m with
      | some e =>
        rw [hfo] at hmem
        by_cases hstg : e.stage = .awaitingCheckIn
        · cases b with
          | true =>
            simp [hstg] at hmem
            simp [hstg, hmem]
          | false => simp [hstg] at hmem
        · simp [hstg] at hmem
      | none => rw [hfo] at hmem; simp at hmem
    | checkInTimeout t =>
      rw [step, escalateOpen] at hmem ⊢
      cases hfo : findOpen m with
      | some e =>
        rw [hfo] at hmem
        by_cases hstg : e.stage = .awaitingCheckIn
        · simp [hstg] at hmem
          simp [hstg, hmem]
        · simp [hstg] at hmem
      | none => rw [hfo] at hmem; simp at hmem

/-- Witness for C4: a machine whose open episode awaits check-in escalates
on the timeout with exactly the one `high` alert. -/
theorem checkin_timeout_escalation_witness :
    (step ⟨[⟨0, .awaitingCheckIn, 0, 0⟩], 1⟩ (.checkInTimeout 600)).2.2 =
      [⟨0, .high⟩] ∧
    (⟨0, .escalated, 0, 600⟩ : Episode) ∈
      (step ⟨[⟨0, .awaitingCheckIn, 0, 0⟩], 1⟩ (.checkInTimeout 600)).1.episodes := by
  have h := checkin_timeout_escalation.1 ⟨[⟨0, .awaitingCheckIn, 0, 0⟩], 1⟩
    ⟨0, .awaitingCheckIn, 0, 0⟩ 600 (by decide) rfl
  exact ⟨h.2.2.2, h.2.1⟩

/-- Witness for C10: with the pointer at 1 and the trail at 0 the updated
trail coordinate 0.15 is strictly between them. -/
theorem animate_trail_contraction_witness :
    (0 : ℚ) ≠ 1 ∧ min (0 : ℚ) 1 < trailUpdate 1 0 ∧ trailUpdate 1 0 < max (0 : ℚ) 1 :=
  ⟨by norm_num,
   (animate_trail_contraction.2.2.1 1 0 (by norm_num)).1,
   (animate_trail_contraction.2.2.1 1 0 (by norm_num)).2⟩

end Pulsera
